import Mathlib

/-!
Shallow embedding of the WebKit styled-image model
(Source/WebCore/rendering/style): the StyleImage variant hierarchy
(StyleCachedImage, StyleMultiImage, StyleCrossfadeImage, StyleFilterImage,
StyleCanvasImage), their client registries, loading lifecycle and paint entry
points, translated from the C++ sources.  Machine floats are modelled by Rat,
renderers and clients by Nat identifiers, RefPtr results by Option (none is
the language nullptr; Image::nullImage() is the explicit nullImage value).
-/

/-- Counterpart of WebCore::FloatSize restricted to the operations the
styled-image code uses (width/height pair, emptiness, scalar scale, add). -/
structure FloatSizeQ where
  width : Rat
  height : Rat
deriving DecidableEq, Repr

/-- FloatSize::isEmpty(): width <= 0 or height <= 0. -/
def FloatSizeQ.isEmpty (s : FloatSizeQ) : Bool :=
  decide (s.width ≤ 0) || decide (s.height ≤ 0)

/-- Componentwise scalar multiplication, as in FloatSize::operator*(float). -/
def FloatSizeQ.scale (s : FloatSizeQ) (k : Rat) : FloatSizeQ :=
  ⟨s.width * k, s.height * k⟩

/-- Componentwise addition, as in FloatSize::operator+. -/
def FloatSizeQ.add (a b : FloatSizeQ) : FloatSizeQ :=
  ⟨a.width + b.width, a.height + b.height⟩

/-- Counterpart of WTF::HashCountedSet over client identifiers: an association
list of (client, registration count).  Well-formed sets keep counts positive
and keys distinct; the operations below mirror HashCountedSet::add, remove,
contains. -/
abbrev CountedSet := List (Nat × Nat)

/-- Registration count of a client (0 when absent), as HashCountedSet::count. -/
def CountedSet.count : CountedSet → Nat → Nat
  | [], _ => 0
  | (k, n) :: rest, c => if k = c then n else CountedSet.count rest c

/-- HashCountedSet::add: increment the count, inserting with count 1 when absent. -/
def CountedSet.add : CountedSet → Nat → CountedSet
  | [], c => [(c, 1)]
  | (k, n) :: rest, c =>
    if k = c then (k, n + 1) :: rest else (k, n) :: CountedSet.add rest c

/-- HashCountedSet::remove: decrement the count; the Bool is true exactly when
the entry was fully removed (its count reached zero). -/
def CountedSet.remove : CountedSet → Nat → CountedSet × Bool
  | [], _ => ([], false)
  | (k, n) :: rest, c =>
    if k = c then
      if n ≤ 1 then (rest, true) else ((k, n - 1) :: rest, false)
    else
      let r := CountedSet.remove rest c
      ((k, n) :: r.1, r.2)

/-- The distinct registered clients, in iteration order. -/
def CountedSet.keys (s : CountedSet) : List Nat :=
  s.map Prod.fst

/-- HashCountedSet::contains. -/
def CountedSet.containsKey (s : CountedSet) (c : Nat) : Bool :=
  (CountedSet.keys s).contains c

/-- Total number of counted registrations across all entries. -/
def CountedSet.totalCount (s : CountedSet) : Nat :=
  (s.map Prod.snd).sum

/-- Opaque image objects as produced by the paint entry points.  nullImage is
the Image::nullImage() singleton sentinel; the other constructors stand for
the concrete image objects the code builds. -/
inductive ImageVal where
  | nullImage : ImageVal
  | bitmap (id : Nat) : ImageVal
  | crossfadeGenerated (fromImage toImage : ImageVal) (percentage : Rat)
      (fixedSize targetSize : FloatSizeQ) : ImageVal
  | filteredBitmap (input : ImageVal) : ImageVal
deriving DecidableEq, Repr

/-- Image::isNull(), true only for the null-image sentinel. -/
def ImageVal.isNull : ImageVal → Bool
  | .nullImage => true
  | _ => false

/-- Abstraction of an input StyleImage as seen by a generated image: the
result of child->image(renderer, size) for each requested size, the result of
child->imageSize(renderer, 1), and the result of child->isPending(). -/
structure ChildImage where
  imageAt : FloatSizeQ → Option ImageVal
  sizeFor : FloatSizeQ
  pendingFlag : Bool

/-- The `input && input->isPending()` pattern used by the generated variants. -/
def childIsPending : Option ChildImage → Bool
  | some child => child.pendingFlag
  | none => false

/-- State of a StyleCrossfadeImage: two optional inputs and the blend
percentage (StyleCrossfadeImage.cpp). -/
structure CrossfadeModel where
  fromChild : Option ChildImage
  toChild : Option ChildImage
  percentage : Rat

/-- StyleCrossfadeImage::isPending: pending when either present input is. -/
def StyleCrossfadeImage.isPending (m : CrossfadeModel) : Bool :=
  if childIsPending m.fromChild then true
  else if childIsPending m.toChild then true
  else false

/-- StyleCrossfadeImage::fixedSize: empty when an input is missing; the shared
size verbatim when the two input sizes are identical; otherwise the per-axis
interpolation fromSize * (1 - percentage) + toSize * percentage. -/
def StyleCrossfadeImage.fixedSize (m : CrossfadeModel) : FloatSizeQ :=
  match m.fromChild, m.toChild with
  | some fromChild, some toChild =>
    let fromImageSize := fromChild.sizeFor
    let toImageSize := toChild.sizeFor
    if fromImageSize = toImageSize then fromImageSize
    else (fromImageSize.scale (1 - m.percentage)).add (toImageSize.scale m.percentage)
  | _, _ => ⟨0, 0⟩

/-- StyleCrossfadeImage::image: null-image sentinel without a renderer, the
language null (none) for an empty target size, the sentinel when an input is
missing or an input image is unavailable, and otherwise the generated
crossfade image. -/
def StyleCrossfadeImage.image (m : CrossfadeModel) (renderer : Option Nat)
    (size : FloatSizeQ) : Option ImageVal :=
  match renderer with
  | none => some ImageVal.nullImage
  | some _ =>
    if size.isEmpty then none
    else
      match m.fromChild, m.toChild with
      | some fromChild, some toChild =>
        match fromChild.imageAt size, toChild.imageAt size with
        | some fromImage, some toImage =>
          some (ImageVal.crossfadeGenerated fromImage toImage m.percentage
            (StyleCrossfadeImage.fixedSize m) size)
        | _, _ => some ImageVal.nullImage
      | _, _ => some ImageVal.nullImage

/-- State of a StyleFilterImage: the optional input image and the inherited
StyleGeneratedImage client registry (StyleFilterImage.cpp). -/
structure FilterModel where
  inputImage : Option ChildImage
  clients : CountedSet
  inputImageIsReady : Bool

/-- StyleFilterImage::isPending: `m_inputImage ? m_inputImage->isPending() : false`. -/
def StyleFilterImage.isPending (m : FilterModel) : Bool :=
  match m.inputImage with
  | some child => child.pendingFlag
  | none => false

/-- StyleFilterImage::imageForRenderer.  The cssFilterOk / sourceImageOk /
filteredImageOk flags stand for the success of the opaque graphics
collaborators (CSSFilter::create, ImageBuffer::create, filteredNativeImage);
each failure path returns the null-image sentinel, an empty target size
returns the language null. -/
def StyleFilterImage.imageForRenderer (m : FilterModel)
    (cssFilterOk sourceImageOk filteredImageOk : Bool)
    (client : Option Nat) (size : FloatSizeQ) : Option ImageVal :=
  match client with
  | none => some ImageVal.nullImage
  | some _ =>
    if size.isEmpty then none
    else
      match m.inputImage with
      | none => some ImageVal.nullImage
      | some child =>
        match child.imageAt size with
        | none => some ImageVal.nullImage
        | some inputResult =>
          if inputResult.isNull then some ImageVal.nullImage
          else if !cssFilterOk then some ImageVal.nullImage
          else if !sourceImageOk then some ImageVal.nullImage
          else if !filteredImageOk then some ImageVal.nullImage
          else some (ImageVal.filteredBitmap inputResult)

/-- StyleCanvasImage::isPending (canvas images are never pending). -/
def StyleCanvasImage.isPending : Bool := false

/-- Modelled from the spec: the body of StyleGradientImage::isPending is not in
the source excerpt (only its declaration is); per the spec, gradient images
are never pending. -/
def StyleGradientImage.isPending : Bool := false

/-- Modelled from the spec: the body of StyleNamedImage::isPending is not in
the source excerpt; per the spec, named-resource images are never pending. -/
def StyleNamedImage.isPending : Bool := false

/-- The part of CSSImageValue the StyleCachedImage lifecycle consults: the
identity of the shared, reference-counted value and whether cachedImage() is
already non-null at construction time. -/
structure CSSImageValueModel where
  valueId : Nat
  hasCachedImage : Bool
deriving DecidableEq, Repr

/-- Mutable state of a StyleCachedImage
(rendering/style/images/StyleCachedImage.cpp): the shared CSS value, the
overriding scale factor, the pending flag, whether a CachedImage handle is
held, the counted client set, the clients waiting for async decoding and the
force-all flag. -/
structure StyleCachedImageState where
  cssValue : CSSImageValueModel
  scaleFactor : Rat
  isPending : Bool
  hasCachedImage : Bool
  clients : CountedSet
  clientsWaitingForAsyncDecoding : List Nat
  forceAllClientsWaitingForAsyncDecoding : Bool
deriving DecidableEq, Repr

/-- The StyleCachedImage constructor taking a CSSImageValue and a scale
factor: m_isPending starts true, then the constructor body fetches
cssValue->cachedImage() and clears m_isPending when that is already
non-null. -/
def StyleCachedImage.construct (cssValue : CSSImageValueModel) (scaleFactor : Rat) :
    StyleCachedImageState :=
  { cssValue := cssValue
    scaleFactor := scaleFactor
    isPending := !cssValue.hasCachedImage
    hasCachedImage := cssValue.hasCachedImage
    clients := []
    clientsWaitingForAsyncDecoding := []
    forceAllClientsWaitingForAsyncDecoding := false }

/-- StyleCachedImage::load: ASSERT(m_isPending) (modelled as none on a
non-pending receiver, the debug-assert failure), clear the pending flag and
take the handle the loader produced. -/
def StyleCachedImage.load (st : StyleCachedImageState) (loaderProducedImage : Bool) :
    Option StyleCachedImageState :=
  if st.isPending then
    some { st with isPending := false, hasCachedImage := loaderProducedImage }
  else
    none

/-- StyleCachedImage::copyOverridingScaleFactor: the same object when the
scale factor already matches (Bool false = no new object), otherwise a fresh
StyleCachedImage built from the shared CSS value with the new scale factor. -/
def StyleCachedImage.copyOverridingScaleFactor (other : StyleCachedImageState)
    (scaleFactor : Rat) : Bool × StyleCachedImageState :=
  if other.scaleFactor = scaleFactor then (false, other)
  else (true, StyleCachedImage.construct other.cssValue scaleFactor)

/-- StyleCachedImage::removeClient: decrement the counted registration; when
the client was fully removed, drop it from the waiting set and fire
styleImageClientRemoved at each remaining client.  Returns the new state and
the clients that received the fully-removed notification. -/
def StyleCachedImage.removeClient (st : StyleCachedImageState) (c : Nat) :
    StyleCachedImageState × List Nat :=
  let r := CountedSet.remove st.clients c
  if r.2 then
    ({ st with clients := r.1
               clientsWaitingForAsyncDecoding := st.clientsWaitingForAsyncDecoding.erase c },
     CountedSet.keys r.1)
  else
    ({ st with clients := r.1 }, [])

/-- Loop body of StyleCachedImage::allowsAnimation: return true at the first
client whose styleImageAnimationAllowed callback answers true. -/
def allowsAnimationLoop (clientAllowed : Nat → Bool) : CountedSet → Bool
  | [] => false
  | (k, _) :: rest =>
    if clientAllowed k then true else allowsAnimationLoop clientAllowed rest

/-- StyleCachedImage::allowsAnimation: true when any registered client allows
animation, false with no clients. -/
def StyleCachedImage.allowsAnimation (st : StyleCachedImageState)
    (clientAllowed : Nat → Bool) : Bool :=
  allowsAnimationLoop clientAllowed st.clients

/-- Loop body of StyleFilterImage::styleImageAnimationAllowed: return false at
the first client whose callback answers false. -/
def styleImageAnimationAllowedLoop (clientAllowed : Nat → Bool) : CountedSet → Bool
  | [] => true
  | (k, _) :: rest =>
    if !(clientAllowed k) then false else styleImageAnimationAllowedLoop clientAllowed rest

/-- StyleFilterImage::styleImageAnimationAllowed: forwards the query over the
filter image's own clients, vetoed by any client that disallows animation. -/
def StyleFilterImage.styleImageAnimationAllowed (m : FilterModel)
    (clientAllowed : Nat → Bool) : Bool :=
  styleImageAnimationAllowedLoop clientAllowed m.clients

/-- DecodingStatus as consumed by imageFrameAvailable; only the distinction
Partial versus everything else matters to the styled-image code. -/
inductive DecodingStatus where
  | Invalid
  | Partial
  | Complete
deriving DecidableEq, Repr

/-- Notification loop of StyleCachedImage::imageFrameAvailable: when the image
is not animating, skip every client that is neither covered by the force-all
flag nor in the waiting-for-async-decoding set. -/
def frameAvailableNotifiedLoop (animating force : Bool) (waiting : List Nat) :
    CountedSet → List Nat
  | [] => []
  | (k, _) :: rest =>
    if !animating && !force && !(waiting.contains k) then
      frameAvailableNotifiedLoop animating force waiting rest
    else
      k :: frameAvailableNotifiedLoop animating force waiting rest

/-- StyleCachedImage::imageFrameAvailable: run the throttled notification loop
(collecting per-client viewport visibility), then, when decoding did not
report Partial, clear the waiting set and the force-all flag.  Returns the new
state, the clients notified, and the aggregated visible-in-viewport answer. -/
def StyleCachedImage.imageFrameAvailable (st : StyleCachedImageState)
    (clientVisible : Nat → Bool) (animatingState : Bool)
    (decodingStatus : DecodingStatus) :
    StyleCachedImageState × List Nat × Bool :=
  let notified := frameAvailableNotifiedLoop animatingState
    st.forceAllClientsWaitingForAsyncDecoding st.clientsWaitingForAsyncDecoding st.clients
  let visibleState := notified.any clientVisible
  let st2 :=
    if decodingStatus ≠ DecodingStatus.Partial then
      { st with clientsWaitingForAsyncDecoding := []
                forceAllClientsWaitingForAsyncDecoding := false }
    else st
  (st2, notified, visibleState)

/-- Fan-out loop of StyleCachedImage::imageChanged: the registry is iterated
live (for (auto entry : m_clients)), so a callback may mutate it mid-fanout; a
client whose registration is gone by the time iteration reaches it is not
invoked.  The effect argument is the client's styleImageChanged callback,
which may re-enter the StyleCachedImage state. -/
def imageChangedLoop (effect : Nat → StyleCachedImageState → StyleCachedImageState) :
    List Nat → StyleCachedImageState → StyleCachedImageState × List Nat
  | [], st => (st, [])
  | c :: rest, st =>
    if CountedSet.containsKey st.clients c then
      let st2 := effect c st
      let r := imageChangedLoop effect rest st2
      (r.1, c :: r.2)
    else
      imageChangedLoop effect rest st

/-- StyleCachedImage::imageChanged: fan styleImageChanged out over the live
client registry.  Returns the final state and the clients whose callback ran. -/
def StyleCachedImage.imageChanged (effect : Nat → StyleCachedImageState → StyleCachedImageState)
    (st : StyleCachedImageState) : StyleCachedImageState × List Nat :=
  imageChangedLoop effect (CountedSet.keys st.clients) st

/-- A queued container-context request / call: the container size and zoom for
a client, plus the image URL (opaque identifier). -/
structure ContainerContext where
  containerSize : FloatSizeQ
  containerZoom : Rat
  imageURL : Nat
deriving DecidableEq, Repr

/-- The Pending alternative of StyleMultiImage::m_state: queued counted client
registrations, queued waiting-for-async-decoding clients with the force-all
flag, and queued container-context requests (StyleMultiImage.h/.cpp). -/
structure MultiPendingState where
  clients : CountedSet
  clientsWaitingForAsyncDecoding : List Nat
  forceAllClientsWaitingForAsyncDecoding : Bool
  containerContextRequests : List (Nat × ContainerContext)
deriving DecidableEq, Repr

/-- Observable state of the selected child StyleImage during the transfer in
StyleMultiImage::setSelectedImageAndLoad: its pending flag, its counted client
set and waiting set (as maintained by StyleCachedImage::addClient /
addClientWaitingForAsyncDecoding), the container-context calls it has
received, and how many times load ran on it. -/
structure SelectedImageState where
  isPending : Bool
  clients : CountedSet
  clientsWaitingForAsyncDecoding : List Nat
  forceAllClientsWaitingForAsyncDecoding : Bool
  containerContextCalls : List (Nat × ContainerContext)
  loadCount : Nat
deriving DecidableEq, Repr

/-- StyleCachedImage::addClient on the selected child: m_clients.add(client). -/
def SelectedImageState.addClient (st : SelectedImageState) (c : Nat) : SelectedImageState :=
  { st with clients := st.clients.add c }

/-- StyleCachedImage::addClientWaitingForAsyncDecoding on the selected child:
no-op when already covered; set the force-all flag when the client is not a
registered client; otherwise add it to the waiting set. -/
def SelectedImageState.addClientWaitingForAsyncDecoding (st : SelectedImageState)
    (c : Nat) : SelectedImageState :=
  if st.forceAllClientsWaitingForAsyncDecoding
      || st.clientsWaitingForAsyncDecoding.contains c then
    st
  else if !(st.clients.containsKey c) then
    { st with forceAllClientsWaitingForAsyncDecoding := true }
  else
    { st with clientsWaitingForAsyncDecoding := st.clientsWaitingForAsyncDecoding ++ [c] }

/-- The child's setContainerContextForRenderer, observed as the call it
receives during the transfer. -/
def SelectedImageState.setContainerContextForRenderer (st : SelectedImageState)
    (c : Nat) (ctx : ContainerContext) : SelectedImageState :=
  { st with containerContextCalls := st.containerContextCalls ++ [(c, ctx)] }

/-- The child's load, observed as clearing its pending flag. -/
def SelectedImageState.runLoad (st : SelectedImageState) : SelectedImageState :=
  { st with isPending := false, loadCount := st.loadCount + 1 }

/-- The inner loop `for (unsigned i = 0; i < entry.value; ++i)
selection->addClient(entry.key)` of the client transfer. -/
def addClientRepeated (st : SelectedImageState) (c : Nat) : Nat → SelectedImageState
  | 0 => st
  | n + 1 => addClientRepeated (st.addClient c) c n

/-- StyleMultiImage::setSelectedImageAndLoad in the Pending alternative:
transfer the queued counted client registrations, then the queued
waiting-for-async-decoding clients, then the queued container-context
requests, to the selected image; finally load the selected image if it is
still pending. -/
def StyleMultiImage.setSelectedImageAndLoad (pending : MultiPendingState)
    (selection : SelectedImageState) : SelectedImageState :=
  let afterClients := pending.clients.foldl
    (fun acc entry => addClientRepeated acc entry.1 entry.2) selection
  let afterWaiting := pending.clientsWaitingForAsyncDecoding.foldl
    (fun acc c => acc.addClientWaitingForAsyncDecoding c) afterClients
  let afterContainer := pending.containerContextRequests.foldl
    (fun acc req => acc.setContainerContextForRenderer req.1 req.2) afterWaiting
  if afterContainer.isPending then afterContainer.runLoad else afterContainer

/-- StyleMultiImage::removeClient in the Pending alternative: decrement the
queued registration; when fully removed, fire styleImageClientRemoved at each
remaining queued client. -/
def StyleMultiImage.removeClientPending (pending : MultiPendingState) (c : Nat) :
    MultiPendingState × List Nat :=
  let r := CountedSet.remove pending.clients c
  if r.2 then
    ({ pending with clients := r.1 }, CountedSet.keys r.1)
  else
    ({ pending with clients := r.1 }, [])

/-- Total multiplicity an entry list assigns to one client (specification-side
description of a counted transfer). -/
def entriesCount (entries : List (Nat × Nat)) (k : Nat) : Nat :=
  (entries.map (fun e => if e.1 = k then e.2 else 0)).sum

/-- Adding a registration increments exactly that client's count. -/
theorem CountedSet.count_add (s : CountedSet) (c k : Nat) :
    CountedSet.count (CountedSet.add s c) k
      = CountedSet.count s k + (if k = c then 1 else 0) := by
  induction s with
  | nil =>
    by_cases h : k = c
    · simp [CountedSet.add, CountedSet.count, h]
    · simp [CountedSet.add, CountedSet.count, h, Ne.symm h]
  | cons e rest ih =>
    obtain ⟨a, n⟩ := e
    by_cases hac : a = c
    · subst hac
      by_cases hk : a = k
      · subst hk
        simp [CountedSet.add, CountedSet.count]
      · simp [CountedSet.add, CountedSet.count, hk, Ne.symm hk]
    · by_cases hk : a = k
      · subst hk
        simp [CountedSet.add, CountedSet.count, hac, fun h : a = c => hac h]
      · simp [CountedSet.add, CountedSet.count, hac, hk, ih]

/-- On a counted set with positive counts, HashCountedSet::remove reports a
full removal exactly when the client's count was 1. -/
theorem CountedSet.remove_snd_eq (s : CountedSet) (c : Nat)
    (hpos : ∀ e ∈ s, 0 < e.2) :
    (CountedSet.remove s c).2 = decide (CountedSet.count s c = 1) := by
  induction s with
  | nil => simp [CountedSet.remove, CountedSet.count]
  | cons e rest ih =>
    obtain ⟨a, n⟩ := e
    have hn : 0 < n := hpos (a, n) (by simp)
    by_cases hac : a = c
    · subst hac
      by_cases h1 : n ≤ 1
      · have hn1 : n = 1 := by omega
        subst hn1
        simp [CountedSet.remove, CountedSet.count]
      · have hne : ¬ n = 1 := by omega
        simp [CountedSet.remove, CountedSet.count, h1, hne]
    · have ih2 := ih (fun e he => hpos e (List.mem_cons_of_mem _ he))
      simp [CountedSet.remove, CountedSet.count, hac, ih2]

/-- The early-return loop of StyleCachedImage::allowsAnimation is the
disjunction over the distinct registered clients. -/
theorem allowsAnimationLoop_eq_any (f : Nat → Bool) (s : CountedSet) :
    allowsAnimationLoop f s = (CountedSet.keys s).any f := by
  induction s with
  | nil => simp [allowsAnimationLoop, CountedSet.keys]
  | cons e rest ih =>
    obtain ⟨k, n⟩ := e
    by_cases h : f k <;> simp [allowsAnimationLoop, CountedSet.keys, h, ih]

/-- The early-return loop of StyleFilterImage::styleImageAnimationAllowed is
the conjunction over the distinct registered clients. -/
theorem styleImageAnimationAllowedLoop_eq_all (f : Nat → Bool) (s : CountedSet) :
    styleImageAnimationAllowedLoop f s = (CountedSet.keys s).all f := by
  induction s with
  | nil => simp [styleImageAnimationAllowedLoop, CountedSet.keys]
  | cons e rest ih =>
    obtain ⟨k, n⟩ := e
    by_cases h : f k <;> simp [styleImageAnimationAllowedLoop, CountedSet.keys, h, ih]

/-- The throttled imageFrameAvailable loop notifies every client while the
image animates, and otherwise exactly the clients covered by the force-all
flag or the waiting set. -/
theorem frameAvailableNotifiedLoop_eq (a f : Bool) (w : List Nat) (s : CountedSet) :
    frameAvailableNotifiedLoop a f w s
      = if a then CountedSet.keys s
        else (CountedSet.keys s).filter (fun c => f || w.contains c) := by
  induction s with
  | nil => cases a <;> simp [frameAvailableNotifiedLoop, CountedSet.keys]
  | cons e rest ih =>
    obtain ⟨k, n⟩ := e
    cases a with
    | true => simpa [frameAvailableNotifiedLoop, CountedSet.keys] using ih
    | false =>
      by_cases hf : f
      · simpa [frameAvailableNotifiedLoop, CountedSet.keys, hf] using ih
      · by_cases hw : k ∈ w
        · simpa [frameAvailableNotifiedLoop, CountedSet.keys, hf, hw] using ih
        · simpa [frameAvailableNotifiedLoop, CountedSet.keys, hf, hw] using ih

/-- When no styleImageChanged callback mutates the client registry, the live
fan-out visits exactly the clients registered at entry. -/
theorem imageChangedLoop_filter (effect : Nat → StyleCachedImageState → StyleCachedImageState)
    (h : ∀ c s, (effect c s).clients = s.clients) (L : List Nat) :
    ∀ st : StyleCachedImageState,
      (imageChangedLoop effect L st).2
        = L.filter (fun c => CountedSet.containsKey st.clients c) := by
  induction L with
  | nil => intro st; simp [imageChangedLoop]
  | cons c rest ih =>
    intro st
    by_cases hc : CountedSet.containsKey st.clients c
    · have hrec := ih (effect c st)
      rw [h c st] at hrec
      simp [imageChangedLoop, hc, hrec]
    · simp [imageChangedLoop, hc, ih st]

/-- Claim C1, counterexample: calling the crossfade paint entry point with a
present renderer and the zero-area target size 0 by 0 does not return the
null-image sentinel (it returns the language null instead). -/
theorem crossfade_empty_target_counterexample :
    ¬ (StyleCrossfadeImage.image ⟨none, none, 0⟩ (some 0) ⟨0, 0⟩
        = some ImageVal.nullImage) := by
  decide

/-- Claim C1 (amended): with a renderer present and a zero-area target size,
the paint entry points (crossfade image, filter imageForRenderer) return the
language null (nullptr), while the distinguished null-image sentinel is the
result reserved for a missing renderer (and for missing or unready inputs) --
the two results are distinct but with the roles opposite to the claim. -/
theorem empty_target_size_returns_language_null (m : CrossfadeModel) (fm : FilterModel)
    (cssFilterOk sourceImageOk filteredImageOk : Bool) (r : Nat) (size : FloatSizeQ)
    (h : size.isEmpty = true) :
    (StyleCrossfadeImage.image m (some r) size = none)
  ∧ (StyleFilterImage.imageForRenderer fm cssFilterOk sourceImageOk filteredImageOk
      (some r) size = none)
  ∧ (StyleCrossfadeImage.image m none size = some ImageVal.nullImage)
  ∧ (StyleFilterImage.imageForRenderer fm cssFilterOk sourceImageOk filteredImageOk
      none size = some ImageVal.nullImage) := by
  refine ⟨?_, ?_, rfl, rfl⟩
  · simp [StyleCrossfadeImage.image, h]
  · simp [StyleFilterImage.imageForRenderer, h]

/-- Witness for the amended C1 at a concrete input: the size 0 by 0 is empty
and the crossfade paint entry point returns the language null there. -/
theorem empty_target_size_returns_language_null_witness :
    (FloatSizeQ.isEmpty ⟨0, 0⟩ = true)
  ∧ (StyleCrossfadeImage.image ⟨none, some ⟨fun _ => none, ⟨1, 1⟩, false⟩, 0⟩
      (some 5) ⟨0, 0⟩ = none) :=
  ⟨by decide,
   (empty_target_size_returns_language_null
      ⟨none, some ⟨fun _ => none, ⟨1, 1⟩, false⟩, 0⟩ ⟨none, [], true⟩
      true true true 5 ⟨0, 0⟩ (by decide)).1⟩

/-- Claim C2, counterexample: a StyleCachedImage constructed from a
CSSImageValue that already holds a resolved CachedImage is not pending at
construction, before any call to load(). -/
theorem construct_with_resolved_value_not_pending :
    ¬ ((StyleCachedImage.construct ⟨0, true⟩ 1).isPending = true) := by
  decide

/-- Claim C2 (amended): isPending() is true from construction exactly when the
underlying CSSImageValue does not already hold a resolved CachedImage (when it
does, the image is constructed non-pending); load() debug-asserts on a
non-pending receiver, so it runs successfully at most once, and isPending() is
false immediately after any successful load() regardless of whether the loader
produced a handle. -/
theorem pending_once_lifecycle (v : CSSImageValueModel) (s : Rat)
    (st : StyleCachedImageState) (r : Bool) :
    ((StyleCachedImage.construct v s).isPending = !v.hasCachedImage)
  ∧ ((StyleCachedImage.load st r).isSome = st.isPending)
  ∧ ((StyleCachedImage.load st r).all (fun st2 => !st2.isPending) = true) := by
  refine ⟨rfl, ?_, ?_⟩ <;>
    cases h : st.isPending <;> simp [StyleCachedImage.load, h]

/-- Claim C4 (confirmed): with both crossfade inputs present, the fixed size
is the shared input size verbatim whenever the two input sizes are identical
(at every percentage), and otherwise the per-axis linear interpolation with
weight 1 - percentage on the from input and weight percentage on the to
input. -/
theorem crossfade_fixed_size_spec (m : CrossfadeModel) (f t : ChildImage)
    (hf : m.fromChild = some f) (ht : m.toChild = some t) :
    (f.sizeFor = t.sizeFor → StyleCrossfadeImage.fixedSize m = f.sizeFor)
  ∧ (f.sizeFor ≠ t.sizeFor →
      StyleCrossfadeImage.fixedSize m
        = ⟨f.sizeFor.width * (1 - m.percentage) + t.sizeFor.width * m.percentage,
           f.sizeFor.height * (1 - m.percentage) + t.sizeFor.height * m.percentage⟩) := by
  constructor
  · intro he
    simp [StyleCrossfadeImage.fixedSize, hf, ht, he]
  · intro hne
    simp [StyleCrossfadeImage.fixedSize, hf, ht, hne, FloatSizeQ.scale, FloatSizeQ.add]

/-- Witness for C4 at the spec's example: inputs 100 by 100 (weight 1/4) and
200 by 100 (weight 3/4) interpolate to 175 by 100. -/
theorem crossfade_fixed_size_spec_witness :
    StyleCrossfadeImage.fixedSize
        ⟨some ⟨fun _ => none, ⟨100, 100⟩, false⟩,
         some ⟨fun _ => none, ⟨200, 100⟩, false⟩, (3 : Rat)/4⟩
      = ⟨175, 100⟩ := by
  have h := (crossfade_fixed_size_spec
    ⟨some ⟨fun _ => none, ⟨100, 100⟩, false⟩,
     some ⟨fun _ => none, ⟨200, 100⟩, false⟩, (3 : Rat)/4⟩
    ⟨fun _ => none, ⟨100, 100⟩, false⟩ ⟨fun _ => none, ⟨200, 100⟩, false⟩
    rfl rfl).2 (by decide)
  rw [h]
  have hw : (100 : Rat) * (1 - 3/4) + 200 * (3/4) = 175 := by norm_num
  have hh : (100 : Rat) * (1 - 3/4) + 100 * (3/4) = 100 := by norm_num
  rw [hw, hh]

/-- Claim C5, counterexample: with clients 1, 2, 3 of which only client 3
allows animation, StyleFilterImage's forwarded animation-allowed aggregate is
not the disjunction over the clients (the code vetoes on the first client that
disallows, so it answers false where the claim demands true). -/
theorem filter_animation_allowed_counterexample :
    ¬ (StyleFilterImage.styleImageAnimationAllowed ⟨none, [(1, 1), (2, 1), (3, 1)], true⟩
          (fun c => c == 3)
        = (CountedSet.keys [(1, 1), (2, 1), (3, 1)]).any (fun c => c == 3)) := by
  decide

/-- Claim C5 (amended): StyleCachedImage::allowsAnimation is disjunctive (true
exactly when at least one registered client allows animation, hence false with
zero clients), while StyleFilterImage::styleImageAnimationAllowed forwards
conjunctively (true exactly when every registered client allows animation,
hence vacuously true with zero clients). -/
theorem animation_allowed_aggregates (st : StyleCachedImageState) (m : FilterModel)
    (clientAllowed : Nat → Bool) :
    (StyleCachedImage.allowsAnimation st clientAllowed
      = (CountedSet.keys st.clients).any clientAllowed)
  ∧ (StyleFilterImage.styleImageAnimationAllowed m clientAllowed
      = (CountedSet.keys m.clients).all clientAllowed) :=
  ⟨allowsAnimationLoop_eq_any clientAllowed st.clients,
   styleImageAnimationAllowedLoop_eq_all clientAllowed m.clients⟩

/-- Claim C8, counterexample: a crossfade image with no inputs present reports
isPending() = false, not the vacuous true the claim asserts. -/
theorem crossfade_no_inputs_not_pending :
    ¬ (StyleCrossfadeImage.isPending ⟨none, none, 0⟩ = true) := by
  decide

/-- Claim C8 (amended): for the generated variants, isPending() is the
disjunction of the present inputs' pending flags and is false (not true) when
no inputs are present; Canvas, Gradient and NamedResource variants are never
pending. -/
theorem generated_is_pending_or_of_inputs (m : CrossfadeModel) (fm : FilterModel) :
    (StyleCrossfadeImage.isPending m
      = (childIsPending m.fromChild || childIsPending m.toChild))
  ∧ (StyleFilterImage.isPending fm = childIsPending fm.inputImage)
  ∧ StyleCanvasImage.isPending = false
  ∧ StyleGradientImage.isPending = false
  ∧ StyleNamedImage.isPending = false := by
  refine ⟨?_, ?_, rfl, rfl, rfl⟩
  · cases h1 : childIsPending m.fromChild <;> cases h2 : childIsPending m.toChild <;>
      simp [StyleCrossfadeImage.isPending, h1, h2]
  · cases hm : fm.inputImage <;> simp [StyleFilterImage.isPending, childIsPending, hm]

/-- Claim C10 (confirmed): copyOverridingScaleFactor returns the identical
object (no new instance) when the scale factor already matches, otherwise a
new StyleCachedImage sharing the same underlying CSS image value with the new
scale factor; repeating the operation with the same factor returns the object
unchanged, so it is idempotent for a fixed factor. -/
theorem copy_overriding_scale_factor_spec (i : StyleCachedImageState) (s : Rat) :
    (i.scaleFactor = s → StyleCachedImage.copyOverridingScaleFactor i s = (false, i))
  ∧ (i.scaleFactor ≠ s →
      (StyleCachedImage.copyOverridingScaleFactor i s).1 = true
      ∧ (StyleCachedImage.copyOverridingScaleFactor i s).2.cssValue = i.cssValue
      ∧ (StyleCachedImage.copyOverridingScaleFactor i s).2.scaleFactor = s)
  ∧ StyleCachedImage.copyOverridingScaleFactor
      (StyleCachedImage.copyOverridingScaleFactor i s).2 s
      = (false, (StyleCachedImage.copyOverridingScaleFactor i s).2) := by
  refine ⟨?_, ?_, ?_⟩
  · intro h
    simp [StyleCachedImage.copyOverridingScaleFactor, h]
  · intro h
    simp [StyleCachedImage.copyOverridingScaleFactor, h, StyleCachedImage.construct]
  · by_cases h : i.scaleFactor = s <;>
      simp [StyleCachedImage.copyOverridingScaleFactor, h, StyleCachedImage.construct]

/-- Witness for C10 at a concrete input: overriding scale factor 1 with 2
creates a new object carrying scale factor 2 and the shared CSS value. -/
theorem copy_overriding_scale_factor_spec_witness :
    ((StyleCachedImage.copyOverridingScaleFactor (StyleCachedImage.construct ⟨7, false⟩ 1) 2).1
        = true)
  ∧ ((StyleCachedImage.copyOverridingScaleFactor (StyleCachedImage.construct ⟨7, false⟩ 1) 2).2.scaleFactor
        = 2) :=
  ⟨((copy_overriding_scale_factor_spec (StyleCachedImage.construct ⟨7, false⟩ 1) 2).2.1
      (by decide)).1,
   ((copy_overriding_scale_factor_spec (StyleCachedImage.construct ⟨7, false⟩ 1) 2).2.1
      (by decide)).2.2⟩

/-- Claim C6 (confirmed): when a new frame arrives, an animating image
notifies every registered client, a non-animating image notifies exactly the
clients covered by the force-all flag or the waiting-for-async-decoding set,
and whenever the decode status is anything other than Partial both the waiting
set and the force-all flag are cleared before the call returns. -/
theorem image_frame_available_notification_spec (st : StyleCachedImageState)
    (clientVisible : Nat → Bool) (animatingState : Bool)
    (decodingStatus : DecodingStatus) :
    ((StyleCachedImage.imageFrameAvailable st clientVisible animatingState decodingStatus).2.1
      = if animatingState then CountedSet.keys st.clients
        else (CountedSet.keys st.clients).filter
          (fun c => st.forceAllClientsWaitingForAsyncDecoding
            || st.clientsWaitingForAsyncDecoding.contains c))
  ∧ ((StyleCachedImage.imageFrameAvailable st clientVisible animatingState decodingStatus).1.clientsWaitingForAsyncDecoding
      = if decodingStatus = DecodingStatus.Partial
        then st.clientsWaitingForAsyncDecoding else [])
  ∧ ((StyleCachedImage.imageFrameAvailable st clientVisible animatingState decodingStatus).1.forceAllClientsWaitingForAsyncDecoding
      = (decide (decodingStatus = DecodingStatus.Partial)
          && st.forceAllClientsWaitingForAsyncDecoding)) := by
  refine ⟨?_, ?_, ?_⟩
  · simpa [StyleCachedImage.imageFrameAvailable] using
      frameAvailableNotifiedLoop_eq animatingState
        st.forceAllClientsWaitingForAsyncDecoding
        st.clientsWaitingForAsyncDecoding st.clients
  · by_cases h : decodingStatus = DecodingStatus.Partial <;>
      simp [StyleCachedImage.imageFrameAvailable, h]
  · by_cases h : decodingStatus = DecodingStatus.Partial <;>
      simp [StyleCachedImage.imageFrameAvailable, h]

/-- Claim C7, counterexample: with two counted registrations (clients 1 and 2)
and client 1 removing client 2 from inside its styleImageChanged callback, the
fan-out triggered by imageChanged invokes only one callback, not one per
counted registration -- the registry is iterated live, not snapshotted. -/
theorem image_changed_live_iteration_counterexample :
    ¬ ((StyleCachedImage.imageChanged
          (fun c s => if c = 1 then (StyleCachedImage.removeClient s 2).1 else s)
          ⟨⟨0, false⟩, 1, false, true, [(1, 1), (2, 1)], [], false⟩).2.length
        = CountedSet.totalCount [(1, 1), (2, 1)]) := by
  decide

/-- Claim C7 (amended): a change notification iterates the live client
registry (no snapshot is taken) and invokes each distinct registered client's
callback at most once -- a client whose registration is removed by an earlier
callback of the same fan-out is skipped; in particular, when no callback
mutates the registry, exactly the distinct registered clients are invoked,
each exactly once. -/
theorem image_changed_no_mutation_fanout
    (effect : Nat → StyleCachedImageState → StyleCachedImageState)
    (st : StyleCachedImageState)
    (h : ∀ c s, (effect c s).clients = s.clients) :
    (StyleCachedImage.imageChanged effect st).2 = CountedSet.keys st.clients := by
  unfold StyleCachedImage.imageChanged
  rw [imageChangedLoop_filter effect h (CountedSet.keys st.clients) st]
  apply List.filter_eq_self.mpr
  intro a ha
  simpa [CountedSet.containsKey] using ha

/-- Witness for the amended C7: with registry-preserving callbacks on clients
4 and 5, imageChanged invokes exactly those two callbacks. -/
theorem image_changed_no_mutation_fanout_witness :
    (StyleCachedImage.imageChanged (fun _ s => s)
        ⟨⟨0, false⟩, 1, false, true, [(4, 2), (5, 1)], [], false⟩).2 = [4, 5] := by
  rw [image_changed_no_mutation_fanout (fun _ s => s)
    ⟨⟨0, false⟩, 1, false, true, [(4, 2), (5, 1)], [], false⟩ (fun _ _ => rfl)]
  decide

/-- Claim C9 (confirmed): in both counted-registry implementations --
StyleCachedImage::removeClient and the Pending alternative of
StyleMultiImage::removeClient -- removing a client registration fires the
fully-removed notification to each remaining registered client exactly when
the removed registration was that client's last counted registration (count
1); when the client keeps other registrations, or was not registered, no such
notification fires. -/
theorem remove_client_fully_removed_notification (st : StyleCachedImageState)
    (pending : MultiPendingState) (c : Nat)
    (hpos : ∀ e ∈ st.clients, 0 < e.2)
    (hpos2 : ∀ e ∈ pending.clients, 0 < e.2) :
    ((StyleCachedImage.removeClient st c).2
      = if CountedSet.count st.clients c = 1
        then CountedSet.keys (StyleCachedImage.removeClient st c).1.clients
        else [])
  ∧ ((StyleMultiImage.removeClientPending pending c).2
      = if CountedSet.count pending.clients c = 1
        then CountedSet.keys (StyleMultiImage.removeClientPending pending c).1.clients
        else []) := by
  constructor
  · have hsnd := CountedSet.remove_snd_eq st.clients c hpos
    by_cases h1 : CountedSet.count st.clients c = 1
    · simp [h1] at hsnd
      simp [StyleCachedImage.removeClient, hsnd, h1]
    · simp [h1] at hsnd
      simp [StyleCachedImage.removeClient, hsnd, h1]
  · have hsnd := CountedSet.remove_snd_eq pending.clients c hpos2
    by_cases h1 : CountedSet.count pending.clients c = 1
    · simp [h1] at hsnd
      simp [StyleMultiImage.removeClientPending, hsnd, h1]
    · simp [h1] at hsnd
      simp [StyleMultiImage.removeClientPending, hsnd, h1]

/-- Witness for C9: on a StyleCachedImage, removing the single registration of
client 1 notifies the remaining client 2, while removing one of client 2's two
registrations notifies nobody; on a still-pending StyleMultiImage, removing
the single queued registration of client 3 notifies the remaining queued
client 4. -/
theorem remove_client_fully_removed_notification_witness :
    ((StyleCachedImage.removeClient
        ⟨⟨0, false⟩, 1, false, true, [(1, 1), (2, 2)], [], false⟩ 1).2 = [2])
  ∧ ((StyleCachedImage.removeClient
        ⟨⟨0, false⟩, 1, false, true, [(1, 1), (2, 2)], [], false⟩ 2).2 = [])
  ∧ ((StyleMultiImage.removeClientPending ⟨[(3, 1), (4, 2)], [], false, []⟩ 3).2 = [4]) := by
  refine ⟨?_, ?_, ?_⟩
  · rw [(remove_client_fully_removed_notification
      ⟨⟨0, false⟩, 1, false, true, [(1, 1), (2, 2)], [], false⟩
      ⟨[(3, 1), (4, 2)], [], false, []⟩ 1 (by decide) (by decide)).1]
    decide
  · rw [(remove_client_fully_removed_notification
      ⟨⟨0, false⟩, 1, false, true, [(1, 1), (2, 2)], [], false⟩
      ⟨[(3, 1), (4, 2)], [], false, []⟩ 2 (by decide) (by decide)).1]
    decide
  · rw [(remove_client_fully_removed_notification
      ⟨⟨0, false⟩, 1, false, true, [(1, 1), (2, 2)], [], false⟩
      ⟨[(3, 1), (4, 2)], [], false, []⟩ 3 (by decide) (by decide)).2]
    decide

/-- The repeated addClient of the transfer adds exactly the requested
multiplicity to the target client's count. -/
theorem addClientRepeated_count (c k : Nat) :
    ∀ (n : Nat) (st : SelectedImageState),
      CountedSet.count (addClientRepeated st c n).clients k
        = CountedSet.count st.clients k + (if k = c then n else 0) := by
  intro n
  induction n with
  | zero => intro st; simp [addClientRepeated]
  | succ m ih =>
    intro st
    simp only [addClientRepeated]
    rw [ih (st.addClient c)]
    simp only [SelectedImageState.addClient, CountedSet.count_add]
    by_cases h : k = c <;> (simp [h]; try omega)

/-- The repeated addClient touches only the client registry. -/
theorem addClientRepeated_fields (c : Nat) :
    ∀ (n : Nat) (st : SelectedImageState),
      ((addClientRepeated st c n).isPending = st.isPending)
    ∧ ((addClientRepeated st c n).containerContextCalls = st.containerContextCalls)
    ∧ ((addClientRepeated st c n).loadCount = st.loadCount) := by
  intro n
  induction n with
  | zero => intro st; simp [addClientRepeated]
  | succ m ih =>
    intro st
    simpa [addClientRepeated, SelectedImageState.addClient] using ih (st.addClient c)

/-- The client-transfer fold adds, per client, the total multiplicity the
queued entries assign to it. -/
theorem clientsFold_count (entries : List (Nat × Nat)) :
    ∀ (st : SelectedImageState) (k : Nat),
      CountedSet.count
          ((entries.foldl (fun acc entry => addClientRepeated acc entry.1 entry.2) st).clients) k
        = CountedSet.count st.clients k + entriesCount entries k := by
  induction entries with
  | nil => intro st k; simp [entriesCount]
  | cons e rest ih =>
    intro st k
    simp only [List.foldl_cons]
    rw [ih (addClientRepeated st e.1 e.2) k, addClientRepeated_count e.1 k e.2 st]
    simp only [entriesCount, List.map_cons, List.sum_cons]
    by_cases h : e.1 = k
    · simp [h, entriesCount]
      omega
    · simp [h, Ne.symm h, entriesCount]

/-- The client-transfer fold touches only the client registry. -/
theorem clientsFold_fields (entries : List (Nat × Nat)) :
    ∀ st : SelectedImageState,
      (((entries.foldl (fun acc entry => addClientRepeated acc entry.1 entry.2) st).isPending
          = st.isPending))
    ∧ (((entries.foldl (fun acc entry => addClientRepeated acc entry.1 entry.2) st).containerContextCalls
          = st.containerContextCalls))
    ∧ (((entries.foldl (fun acc entry => addClientRepeated acc entry.1 entry.2) st).loadCount
          = st.loadCount)) := by
  induction entries with
  | nil => intro st; simp
  | cons e rest ih =>
    intro st
    have h1 := addClientRepeated_fields e.1 e.2 st
    have h2 := ih (addClientRepeated st e.1 e.2)
    simp only [List.foldl_cons]
    exact ⟨h2.1.trans h1.1, h2.2.1.trans h1.2.1, h2.2.2.trans h1.2.2⟩

/-- addClientWaitingForAsyncDecoding changes only the waiting set and the
force-all flag. -/
theorem addClientWaiting_fields (st : SelectedImageState) (c : Nat) :
    ((st.addClientWaitingForAsyncDecoding c).clients = st.clients)
  ∧ ((st.addClientWaitingForAsyncDecoding c).isPending = st.isPending)
  ∧ ((st.addClientWaitingForAsyncDecoding c).containerContextCalls = st.containerContextCalls)
  ∧ ((st.addClientWaitingForAsyncDecoding c).loadCount = st.loadCount) := by
  unfold SelectedImageState.addClientWaitingForAsyncDecoding
  by_cases h1 : st.forceAllClientsWaitingForAsyncDecoding = true
      ∨ c ∈ st.clientsWaitingForAsyncDecoding
  · simp [h1]
  · by_cases h2 : CountedSet.containsKey st.clients c = false <;> simp [h1, h2]

/-- The waiting-set transfer fold leaves the client registry, pending flag,
received container calls and load count unchanged. -/
theorem waitingFold_fields (cs : List Nat) :
    ∀ st : SelectedImageState,
      ((cs.foldl (fun acc c => acc.addClientWaitingForAsyncDecoding c) st).clients = st.clients)
    ∧ ((cs.foldl (fun acc c => acc.addClientWaitingForAsyncDecoding c) st).isPending = st.isPending)
    ∧ ((cs.foldl (fun acc c => acc.addClientWaitingForAsyncDecoding c) st).containerContextCalls
        = st.containerContextCalls)
    ∧ ((cs.foldl (fun acc c => acc.addClientWaitingForAsyncDecoding c) st).loadCount
        = st.loadCount) := by
  induction cs with
  | nil => intro st; simp
  | cons c rest ih =>
    intro st
    have h1 := addClientWaiting_fields st c
    have h2 := ih (st.addClientWaitingForAsyncDecoding c)
    simp only [List.foldl_cons]
    exact ⟨h2.1.trans h1.1, h2.2.1.trans h1.2.1,
           h2.2.2.1.trans h1.2.2.1, h2.2.2.2.trans h1.2.2.2⟩

/-- The container-context transfer fold forwards exactly the queued requests,
in order, and touches nothing else the claim observes. -/
theorem containerFold_state (reqs : List (Nat × ContainerContext)) :
    ∀ st : SelectedImageState,
      ((reqs.foldl (fun acc req => acc.setContainerContextForRenderer req.1 req.2) st).containerContextCalls
          = st.containerContextCalls ++ reqs)
    ∧ ((reqs.foldl (fun acc req => acc.setContainerContextForRenderer req.1 req.2) st).clients
        = st.clients)
    ∧ ((reqs.foldl (fun acc req => acc.setContainerContextForRenderer req.1 req.2) st).isPending
        = st.isPending)
    ∧ ((reqs.foldl (fun acc req => acc.setContainerContextForRenderer req.1 req.2) st).loadCount
        = st.loadCount) := by
  induction reqs with
  | nil => intro st; simp
  | cons r rest ih =>
    intro st
    have h := ih (st.setContainerContextForRenderer r.1 r.2)
    simp only [List.foldl_cons]
    refine ⟨?_, h.2.1, h.2.2.1, h.2.2.2⟩
    rw [h.1]
    simp [SelectedImageState.setContainerContextForRenderer]

/-- An absent key gathers no multiplicity from the entry list. -/
theorem entriesCount_eq_zero (s : List (Nat × Nat)) (k : Nat)
    (h : k ∉ CountedSet.keys s) : entriesCount s k = 0 := by
  induction s with
  | nil => simp [entriesCount]
  | cons e rest ih =>
    have h1 : ¬ (k = e.1) ∧ k ∉ CountedSet.keys rest := by
      simpa [CountedSet.keys] using h
    have h2 := ih h1.2
    simp only [entriesCount, List.map_cons, List.sum_cons] at h2 ⊢
    simp [Ne.symm h1.1, h2]

/-- On a counted set with distinct keys, the total multiplicity of a client is
its registered count. -/
theorem entriesCount_eq_count (s : CountedSet) (k : Nat)
    (h : (CountedSet.keys s).Nodup) : entriesCount s k = CountedSet.count s k := by
  induction s with
  | nil => simp [entriesCount, CountedSet.count]
  | cons e rest ih =>
    obtain ⟨a, n⟩ := e
    have hn : a ∉ CountedSet.keys rest ∧ (CountedSet.keys rest).Nodup := by
      simpa [CountedSet.keys] using h
    by_cases hak : a = k
    · subst hak
      have h0 := entriesCount_eq_zero rest a hn.1
      simp only [entriesCount, List.map_cons, List.sum_cons] at h0 ⊢
      simp [CountedSet.count, h0]
    · have h2 := ih hn.2
      simp only [entriesCount, List.map_cons, List.sum_cons] at h2 ⊢
      simp [CountedSet.count, hak, h2]

/-- Claim C3 (confirmed): resolving a still-pending StyleMultiImage transfers
exactly the queued counted client registrations (with their multiplicities)
and exactly the queued container-context requests to the selected child, with
no duplication and no loss, and then loads the child exactly when it is still
pending (after which the child is no longer pending). -/
theorem multi_image_transfer_exact (pending : MultiPendingState)
    (selection : SelectedImageState)
    (hsel : selection.clients = []) (hcc : selection.containerContextCalls = [])
    (hnodup : (CountedSet.keys pending.clients).Nodup) :
    (∀ c, CountedSet.count (StyleMultiImage.setSelectedImageAndLoad pending selection).clients c
        = CountedSet.count pending.clients c)
  ∧ ((StyleMultiImage.setSelectedImageAndLoad pending selection).containerContextCalls
      = pending.containerContextRequests)
  ∧ ((StyleMultiImage.setSelectedImageAndLoad pending selection).loadCount
      = selection.loadCount + (if selection.isPending then 1 else 0))
  ∧ ((StyleMultiImage.setSelectedImageAndLoad pending selection).isPending = false) := by
  have hA := clientsFold_fields pending.clients selection
  have hAcount := clientsFold_count pending.clients selection
  have hB := waitingFold_fields pending.clientsWaitingForAsyncDecoding
    (pending.clients.foldl (fun acc entry => addClientRepeated acc entry.1 entry.2) selection)
  have hC := containerFold_state pending.containerContextRequests
    (pending.clientsWaitingForAsyncDecoding.foldl
      (fun acc c => acc.addClientWaitingForAsyncDecoding c)
      (pending.clients.foldl (fun acc entry => addClientRepeated acc entry.1 entry.2) selection))
  simp only [StyleMultiImage.setSelectedImageAndLoad]
  have hCpending : (pending.containerContextRequests.foldl
      (fun acc req => acc.setContainerContextForRenderer req.1 req.2)
      (pending.clientsWaitingForAsyncDecoding.foldl
        (fun acc c => acc.addClientWaitingForAsyncDecoding c)
        (pending.clients.foldl (fun acc entry => addClientRepeated acc entry.1 entry.2)
          selection))).isPending = selection.isPending := by
    rw [hC.2.2.1, hB.2.1, hA.1]
  simp only [hCpending]
  cases hp : selection.isPending with
  | false =>
    rw [if_neg (by decide)]
    refine ⟨?_, ?_, ?_, ?_⟩
    · intro c
      rw [hC.2.1, hB.1, hAcount c, hsel]
      simp [CountedSet.count, entriesCount_eq_count pending.clients c hnodup]
    · rw [hC.1, hB.2.2.1, hA.2.1, hcc]
      simp
    · rw [hC.2.2.2, hB.2.2.2, hA.2.2]
      simp
    · rw [hCpending, hp]
  | true =>
    rw [if_pos rfl]
    refine ⟨?_, ?_, ?_, rfl⟩
    · intro c
      simp only [SelectedImageState.runLoad]
      rw [hC.2.1, hB.1, hAcount c, hsel]
      simp [CountedSet.count, entriesCount_eq_count pending.clients c hnodup]
    · simp only [SelectedImageState.runLoad]
      rw [hC.1, hB.2.2.1, hA.2.1, hcc]
      simp
    · simp only [SelectedImageState.runLoad]
      rw [hC.2.2.2, hB.2.2.2, hA.2.2]
      simp

/-- Witness for C3 at the spec's example: three queued clients and one queued
container-context request on a pending MultiImage end up, after resolution, as
exactly those clients and exactly that one container-context call on the
selected child, which is loaded once. -/
theorem multi_image_transfer_exact_witness :
    (CountedSet.count (StyleMultiImage.setSelectedImageAndLoad
        ⟨[(1, 1), (2, 1), (3, 1)], [], false, [(1, ⟨⟨10, 10⟩, 1, 7⟩)]⟩
        ⟨true, [], [], false, [], 0⟩).clients 2 = 1)
  ∧ ((StyleMultiImage.setSelectedImageAndLoad
        ⟨[(1, 1), (2, 1), (3, 1)], [], false, [(1, ⟨⟨10, 10⟩, 1, 7⟩)]⟩
        ⟨true, [], [], false, [], 0⟩).containerContextCalls
      = [(1, ⟨⟨10, 10⟩, 1, 7⟩)])
  ∧ ((StyleMultiImage.setSelectedImageAndLoad
        ⟨[(1, 1), (2, 1), (3, 1)], [], false, [(1, ⟨⟨10, 10⟩, 1, 7⟩)]⟩
        ⟨true, [], [], false, [], 0⟩).loadCount = 1) := by
  have h := multi_image_transfer_exact
    ⟨[(1, 1), (2, 1), (3, 1)], [], false, [(1, ⟨⟨10, 10⟩, 1, 7⟩)]⟩
    ⟨true, [], [], false, [], 0⟩ rfl rfl (by decide)
  exact ⟨(h.1 2).trans (by decide), h.2.1, h.2.2.1.trans (by decide)⟩
